import Mathlib

/-!
Verification of the core shuffling pipeline of pyBourne/sortify
(`src/shuffler.py`), a shallow embedding.

Conventions of the embedding:
* Python float cells are modelled by `Val` (a finite rational value or the
  NaN marker); coordinates produced by the embedding step are modelled as
  rationals (every IEEE float value is rational), and the real-valued
  distance computation `distance` / `CreateDistanceCallback` is modelled
  over `ℝ` with `Real.sqrt` standing for `math.sqrt`.
* The external library calls that `shuffler.py` delegates to are handled as
  follows: the pandas/numpy operations are modelled by their documented
  semantics; `sklearn.manifold.MDS` (an opaque, randomly-initialised
  library call) is an arbitrary parameter `embed`; the ortools TSP solver
  is modelled from the spec (nearest-neighbour construction from the depot
  plus 2-opt improvement, spec §4.3).
* Exceptions are modelled with `Except`; because a Python method can mutate
  `self` before raising, stateful accessors return `Except ... × Shuffler`.
* Out-of-range list indexing in pure helper functions is modelled with
  `List.getD` defaults; every theorem below only exercises in-range indices.
-/

/-- A Python float cell of a feature record: a finite value (rational) or
the non-finite NaN marker. -/
inductive Val where
  | num (q : ℚ)
  | nan
deriving DecidableEq

/-- Python exceptions raised by the pandas/numpy calls in `shuffler.py`:
`KeyError` (from `set_index` / column selection) and `IndexError` (from
indexing a numpy array of the wrong shape). -/
inductive PyErr where
  | keyError (k : String)
  | indexError
deriving DecidableEq

/-- A feature record (`self._features` element): a mapping from field names
to float values, as returned by the audio-features API. -/
abbrev Record := List (String × Val)

/-- The field names of a record. -/
def recordKeys (r : Record) : List String := r.map Prod.fst

/-- Cell lookup with pandas `DataFrame` semantics: a field missing from a
record becomes NaN in the materialised frame. -/
def cellOf (r : Record) (c : String) : Val :=
  match r.lookup c with
  | some v => v
  | none => Val.nan

/-- The column list of `pd.DataFrame.from_dict(records)`: the union of the
records' key sets (only membership in this list is observed below). -/
def frameCols (records : List Record) : List String :=
  ((records.map recordKeys).flatten).dedup

/-- The pandas DataFrame built by `Shuffler._build_frame`: its columns and
the records it was materialised from (cells are read through `cellOf`). -/
structure Frame where
  cols : List String
  records : List Record
deriving DecidableEq

/-- The ten feature columns hard-coded in `Shuffler.get_features`
(`f_cols`, src/shuffler.py lines 65-67). -/
def f_cols : List String :=
  ["danceability", "energy", "key", "loudness",
   "speechiness", "acousticness", "instrumentalness",
   "liveness", "valence", "tempo"]

/-- A track as consumed by `Shuffler.get_charts` (only the display name of a
track is read by the core). -/
structure Track where
  name : String
deriving DecidableEq

/-- Modelled from the spec: the 2-D embedding step `Shuffler.decompose`
calls `sklearn.manifold.MDS(n_components=2).fit_transform`, an opaque
external library routine (stress-minimising metric MDS, spec §4.2, whose
determinism policy the spec leaves open). It is therefore modelled as an
arbitrary function from the feature matrix to a list of 2-D points, taken
as a parameter; the theorems below hold for every such function. -/
abbrev Embed := List (List Val) → List (ℚ × ℚ)

/-- The state of a `Shuffler` instance: the two constructor arguments and
the three lazily computed cache attributes `_df`, `_locations`, `_sort`. -/
structure Shuffler where
  tracks : List Track
  features : List Record
  df : Option Frame
  locations : Option (List (ℚ × ℚ))
  sort : Option (List ℕ)
deriving DecidableEq

/-- `Shuffler.__init__(tracks, features)`: caches start out unset. -/
def initShuffler (tracks : List Track) (features : List Record) : Shuffler :=
  ⟨tracks, features, none, none, none⟩

/-- `Shuffler._build_frame`: materialises the DataFrame into `self._df`,
then calls `self._df.set_index('id')`, which raises a `KeyError` when the
frame has no `id` column (its return value is discarded by the source).
The cache `_df` is written before the potential exception, as in Python. -/
def buildFrameS (st : Shuffler) : Except PyErr Frame × Shuffler :=
  let df : Frame := ⟨frameCols st.features, st.features⟩
  let st1 := {st with df := some df}
  if "id" ∈ df.cols then (Except.ok df, st1)
  else (Except.error (PyErr.keyError "id"), st1)

/-- The feature matrix `self._df[f_cols].values`: one row per record, the
ten feature columns in their hard-coded order, missing cells as NaN. -/
def featureMatrix (records : List Record) : List (List Val) :=
  records.map (fun r => f_cols.map (cellOf r))

/-- `Shuffler.get_features`: builds the frame if `_df` is unset, then
projects the ten feature columns; the selection `self._df[f_cols]` raises a
`KeyError` when a required column is absent from the frame. -/
def getFeaturesS (st : Shuffler) : Except PyErr (List (List Val)) × Shuffler :=
  let p :=
    match st.df with
    | some df => (Except.ok df, st)
    | none => buildFrameS st
  match p with
  | (Except.error e, st1) => (Except.error e, st1)
  | (Except.ok df, st1) =>
    match f_cols.find? (fun c => !(df.cols.contains c)) with
    | some c => (Except.error (PyErr.keyError c), st1)
    | none => (Except.ok (df.records.map (fun r => f_cols.map (cellOf r))), st1)

section FeatureLemmas

/-- Membership in the frame columns comes from membership in some record. -/
lemma mem_frameCols_of_mem_keys {records : List Record} {r : Record} {c : String}
    (hr : r ∈ records) (hc : c ∈ recordKeys r) : c ∈ frameCols records := by
  unfold frameCols
  rw [List.mem_dedup, List.mem_flatten]
  exact ⟨recordKeys r, List.mem_map_of_mem recordKeys hr, hc⟩

/-- Evaluation of `get_features` on a state with an unset `_df` cache, when
the `id` column and all ten feature columns are present. -/
lemma getFeaturesS_eval (st : Shuffler) (hdf : st.df = none)
    (hid : "id" ∈ frameCols st.features)
    (hcols : ∀ c ∈ f_cols, c ∈ frameCols st.features) :
    getFeaturesS st =
      (Except.ok (featureMatrix st.features),
       {st with df := some ⟨frameCols st.features, st.features⟩}) := by
  have hfind : f_cols.find? (fun c => !decide (c ∈ frameCols st.features)) = none := by
    rw [List.find?_eq_none]
    intro c hc
    simp [hcols c hc]
  unfold getFeaturesS buildFrameS
  rw [hdf]
  simp only [hid, if_pos]
  simp [hfind, featureMatrix]

/-- Evaluation of `get_features` on a state whose `_df` cache already holds
the canonical frame (with all required columns present). -/
lemma getFeaturesS_eval_cached (st : Shuffler)
    (hdf : st.df = some ⟨frameCols st.features, st.features⟩)
    (hcols : ∀ c ∈ f_cols, c ∈ frameCols st.features) :
    getFeaturesS st = (Except.ok (featureMatrix st.features), st) := by
  have hfind : f_cols.find? (fun c => !decide (c ∈ frameCols st.features)) = none := by
    rw [List.find?_eq_none]
    intro c hc
    simp [hcols c hc]
  unfold getFeaturesS
  rw [hdf]
  simp [hfind, featureMatrix]

end FeatureLemmas

/-! ## Distances and the tour solver -/

/-- `distance(x1, y1, x2, y2)` (src/shuffler.py lines 188-199): the
Euclidean distance between two coordinates, `math.sqrt` idealised as
`Real.sqrt`. -/
noncomputable def distance (x1 y1 x2 y2 : ℝ) : ℝ :=
  Real.sqrt ((x1 - x2) ^ 2 + (y1 - y2) ^ 2)

namespace CreateDistanceCallback

/-- The distance array built by `CreateDistanceCallback.__init__`: `0` on
the diagonal, otherwise the (untruncated) Euclidean distance between the
two location rows. -/
noncomputable def matrix (locations : List (ℚ × ℚ)) (from_node to_node : ℕ) : ℝ :=
  if from_node = to_node then 0
  else
    distance ((locations.getD from_node (0, 0)).1 : ℝ)
             ((locations.getD from_node (0, 0)).2 : ℝ)
             ((locations.getD to_node (0, 0)).1 : ℝ)
             ((locations.getD to_node (0, 0)).2 : ℝ)

/-- Python `int()` applied to a float: truncation toward zero. -/
noncomputable def pyInt (x : ℝ) : ℤ :=
  if 0 ≤ x then ⌊x⌋ else ⌈x⌉

/-- `CreateDistanceCallback.Distance`: the arc-cost callback handed to the
tour solver, `int(self.matrix[from_node][to_node])`. -/
noncomputable def Distance (locations : List (ℚ × ℚ)) (from_node to_node : ℕ) : ℤ :=
  pyInt (matrix locations from_node to_node)

end CreateDistanceCallback

/-- The squared Euclidean distance between two rational points (exact). -/
def distSq (p q : ℚ × ℚ) : ℚ :=
  (p.1 - q.1) ^ 2 + (p.2 - q.2) ^ 2

/-- `⌊√x⌋` of a non-negative rational, computed exactly:
`⌊√(a/b)⌋ = ⌊√(a·b)/b⌋ = ⌊√(a·b)⌋ / b` (`ratSqrtFloor_eq_floor_sqrt`
identifies it with `⌊Real.sqrt x⌋`). -/
def ratSqrtFloor (x : ℚ) : ℕ :=
  Nat.sqrt (x.num.toNat * x.den) / x.den

/-- The integer arc costs the solver consumes: an executable version of
`CreateDistanceCallback.Distance` over the rational coordinates
(`ratCost_eq_Distance` below proves the two agree). -/
def ratCost (locations : List (ℚ × ℚ)) (i j : ℕ) : ℤ :=
  if i = j then 0
  else ratSqrtFloor (distSq (locations.getD i (0, 0)) (locations.getD j (0, 0)))

/-- Modelled from the spec: the tour search itself is delegated by
`Shuffler.get_sort` to the opaque external ortools routing solver
(`pywrapcp.RoutingModel`, src/shuffler.py lines 100-125); the spec models
the tour solver as nearest-neighbour construction from the depot followed
by 2-opt improvement (spec §4.3). `nearerOf` is one step of the nearest
unvisited-candidate selection; ties keep the earlier (lowest-index)
candidate, the spec's tie-break policy. -/
def nearerOf (c : ℕ → ℕ → ℤ) (cur : ℕ) (best : Option ℕ) (j : ℕ) : Option ℕ :=
  match best with
  | none => some j
  | some b => if c cur j < c cur b then some j else some b

/-- Modelled from the spec: the nearest unvisited candidate seen from
`cur` (lowest index on cost ties); `none` iff there is no candidate. -/
def nearestIdx (c : ℕ → ℕ → ℤ) (cur : ℕ) (cands : List ℕ) : Option ℕ :=
  cands.foldl (nearerOf c cur) none

/-- Modelled from the spec: nearest-neighbour construction — repeatedly
append the nearest unvisited node (fuel-bounded recursion; the fuel is set
to the node count by `nnTour`). -/
def nnLoop (c : ℕ → ℕ → ℤ) : ℕ → ℕ → List ℕ → List ℕ
  | 0, _, _ => []
  | fuel + 1, cur, unvisited =>
    match nearestIdx c cur unvisited with
    | none => []
    | some nxt => nxt :: nnLoop c fuel nxt (unvisited.erase nxt)

/-- Modelled from the spec: the nearest-neighbour tour over nodes
`0, …, n-1` starting at the depot. -/
def nnTour (c : ℕ → ℕ → ℤ) (n depot : ℕ) : List ℕ :=
  depot :: nnLoop c n depot ((List.range n).erase depot)

/-- Modelled from the spec: total cost of an open tour, the sum of the arc
costs of consecutive nodes. -/
def tourCost (c : ℕ → ℕ → ℤ) : List ℕ → ℤ
  | [] => 0
  | [_] => 0
  | a :: b :: rest => c a b + tourCost c (b :: rest)

/-- Modelled from the spec: a 2-opt move on edge pair `(i, i+1)`, `(j, j+1)`
— reverse the sub-path strictly between positions `i` and `j+1`. -/
def twoOptSwap (t : List ℕ) (i j : ℕ) : List ℕ :=
  t.take (i + 1) ++ ((t.drop (i + 1)).take (j - i)).reverse ++ t.drop (j + 1)

/-- Modelled from the spec: the scan order of non-adjacent edge pairs
`(i, i+1)`, `(j, j+1)` of an open tour `t`. -/
def improvePairs (t : List ℕ) : List (ℕ × ℕ) :=
  (List.range t.length).flatMap (fun i =>
    (List.range t.length).filterMap (fun j =>
      if i + 1 < j ∧ j + 1 < t.length then some (i, j) else none))

/-- Modelled from the spec: the first edge pair whose 2-opt move strictly
reduces the total tour cost, if any. -/
def findImprove (c : ℕ → ℕ → ℤ) (t : List ℕ) : Option (ℕ × ℕ) :=
  (improvePairs t).find?
    (fun p => decide (tourCost c (twoOptSwap t p.1 p.2) < tourCost c t))

/-- Modelled from the spec: 2-opt local search — apply improving moves
until none is found or the pass budget is exhausted. -/
def twoOptLoop (c : ℕ → ℕ → ℤ) : ℕ → List ℕ → List ℕ
  | 0, t => t
  | fuel + 1, t =>
    match findImprove c t with
    | none => t
    | some p => twoOptLoop c fuel (twoOptSwap t p.1 p.2)

/-- The depot (start node) of the route, hard-coded to `0` in
`Shuffler.get_sort` (src/shuffler.py line 98). -/
def depot : ℕ := 0

/-- Modelled from the spec: the tour solver — nearest-neighbour
construction followed by budget-bounded 2-opt improvement (§4.3). -/
def solveTour (c : ℕ → ℕ → ℤ) (n d : ℕ) : List ℕ :=
  twoOptLoop c (n * n) (nnTour c n d)

/-- The tour-construction logic of `Shuffler.get_sort` given the decomposed
locations (src/shuffler.py lines 95-125): nothing is appended to `_sort`
when `tsp_size` is zero; otherwise the solver's route, read off from the
depot, is returned. -/
def tourOfLocations (locations : List (ℚ × ℚ)) : List ℕ :=
  if 0 < locations.length then solveTour (ratCost locations) locations.length depot
  else []

/-! ## The session accessors -/

/-- `Shuffler.decompose`: computes the 2-D locations via the (opaque,
parameterised) MDS `embed` on first call and caches them in `_locations`;
an exception from `get_features` propagates. -/
def decomposeS (embed : Embed) (st : Shuffler) :
    Except PyErr (List (ℚ × ℚ)) × Shuffler :=
  match st.locations with
  | some l => (Except.ok l, st)
  | none =>
    match getFeaturesS st with
    | (Except.error e, st1) => (Except.error e, st1)
    | (Except.ok feats, st1) =>
      let l := embed feats
      (Except.ok l, {st1 with locations := some l})

/-- `Shuffler.get_sort`: on first call, sets `self._sort = []` (before
anything can raise, as in the source), decomposes, and — when `tsp_size`
is positive — runs the tour solver and records the route in `_sort`;
subsequent calls return the cache. -/
def getSortS (embed : Embed) (st : Shuffler) :
    Except PyErr (List ℕ) × Shuffler :=
  match st.sort with
  | some s => (Except.ok s, st)
  | none =>
    let st0 := {st with sort := some []}
    match decomposeS embed st0 with
    | (Except.error e, st1) => (Except.error e, st1)
    | (Except.ok locations, st1) =>
      let t := tourOfLocations locations
      (Except.ok t, {st1 with sort := some t})

/-- One of the two `ColumnDataSource`s built by `Shuffler.get_charts`: the
`x`, `y` and `name` column arrays. -/
structure ChartPointSet where
  x : List ℚ
  y : List ℚ
  name : List String
deriving DecidableEq

/-- The bokeh tools attached to the figures by `Shuffler.get_charts`. -/
inductive BokehTool where
  | hover
  | boxZoom
  | zoomIn
  | zoomOut
  | reset
deriving DecidableEq

/-- The toolset selected by the `mobile` flag (src/shuffler.py lines
164-168): a mobile client gets only the hover tool. -/
def toolset (mobile : Bool) : List BokehTool :=
  if mobile then [BokehTool.hover]
  else [BokehTool.hover, BokehTool.boxZoom, BokehTool.zoomIn,
        BokehTool.zoomOut, BokehTool.reset]

/-- The data part of `Shuffler.get_charts` (lines 133-155): the original
point set (input order) and the sorted point set (tour order), names and
coordinates permuted by the same indices. -/
def chartSources (tracks : List Track) (locations : List (ℚ × ℚ))
    (sort : List ℕ) : ChartPointSet × ChartPointSet :=
  let old_names := tracks.map Track.name
  let sorted_names := sort.map (fun i => old_names.getD i "")
  let locs := locations
  let sorted_locs := sort.map (fun i => locs.getD i ((0 : ℚ), (0 : ℚ)))
  (⟨locs.map Prod.fst, locs.map Prod.snd, old_names⟩,
   ⟨sorted_locs.map Prod.fst, sorted_locs.map Prod.snd, sorted_names⟩)

/-- The guard at the start of `Shuffler.get_charts`:
`if self._sort is None: self.get_sort()`. -/
def ensureSort (embed : Embed) (st : Shuffler) : Except PyErr Unit × Shuffler :=
  match st.sort with
  | some _ => (Except.ok (), st)
  | none =>
    match getSortS embed st with
    | (Except.error e, st1) => (Except.error e, st1)
    | (Except.ok _, st1) => (Except.ok (), st1)

/-- `Shuffler.get_charts(mobile)`: ensures the sort, then builds the two
data sources and the figures. `np.array(self._locations)[:, 0]` raises an
`IndexError` unless `_locations` is a non-empty list of pairs (an empty or
`None` value yields an array that cannot be indexed with `[:, 0]`), which
the second match models. The bokeh rendering (`components`) is out of the
core's scope; the returned value is the numeric chart data plus the
selected toolset. -/
def getChartsS (embed : Embed) (mobile : Bool) (st : Shuffler) :
    Except PyErr ((ChartPointSet × ChartPointSet) × List BokehTool) × Shuffler :=
  match ensureSort embed st with
  | (Except.error e, st1) => (Except.error e, st1)
  | (Except.ok _, st1) =>
    match st1.locations with
    | some (p :: rest) =>
      (Except.ok (chartSources st1.tracks (p :: rest) (st1.sort.getD []),
                  toolset mobile), st1)
    | _ => (Except.error PyErr.indexError, st1)

/-! ## Solver lemmas: the tour is a permutation and starts at the depot -/

section SolverLemmas

lemma foldl_nearerOf_some (c : ℕ → ℕ → ℤ) (cur : ℕ) :
    ∀ (l : List ℕ) (b : ℕ),
      ∃ r, l.foldl (nearerOf c cur) (some b) = some r ∧ (r = b ∨ r ∈ l) := by
  intro l
  induction l with
  | nil => exact fun b => ⟨b, rfl, Or.inl rfl⟩
  | cons j l ih =>
    intro b
    rw [List.foldl_cons]
    have hstep : nearerOf c cur (some b) j =
        some (if c cur j < c cur b then j else b) := by
      simp only [nearerOf]
      split_ifs <;> rfl
    rw [hstep]
    obtain ⟨r, hr, hm⟩ := ih (if c cur j < c cur b then j else b)
    refine ⟨r, hr, ?_⟩
    rcases hm with h | h
    · by_cases hc : c cur j < c cur b
      · rw [if_pos hc] at h
        exact Or.inr (h ▸ List.mem_cons_self j l)
      · rw [if_neg hc] at h
        exact Or.inl h
    · exact Or.inr (List.mem_cons_of_mem j h)

lemma nearestIdx_mem {c : ℕ → ℕ → ℤ} {cur : ℕ} :
    ∀ {l : List ℕ} {r : ℕ}, nearestIdx c cur l = some r → r ∈ l := by
  intro l r h
  cases l with
  | nil => cases h
  | cons j l =>
    obtain ⟨r', hr', hm⟩ := foldl_nearerOf_some c cur l j
    unfold nearestIdx at h
    rw [List.foldl_cons] at h
    have hj : nearerOf c cur none j = some j := rfl
    rw [hj, hr'] at h
    cases h
    rcases hm with h | h
    · exact h ▸ List.mem_cons_self j l
    · exact List.mem_cons_of_mem j h

lemma nearestIdx_of_ne_nil {c : ℕ → ℕ → ℤ} {cur : ℕ} {l : List ℕ}
    (h : l ≠ []) : ∃ r, nearestIdx c cur l = some r := by
  cases l with
  | nil => cases h rfl
  | cons j l =>
    obtain ⟨r, hr, _⟩ := foldl_nearerOf_some c cur l j
    exact ⟨r, by unfold nearestIdx; rw [List.foldl_cons]; exact hr⟩

lemma nnLoop_perm (c : ℕ → ℕ → ℤ) :
    ∀ (fuel cur : ℕ) (l : List ℕ), l.length ≤ fuel →
      (nnLoop c fuel cur l).Perm l := by
  intro fuel
  induction fuel with
  | zero =>
    intro cur l hl
    have : l = [] := List.length_eq_zero.mp (Nat.le_zero.mp hl)
    subst this
    exact List.Perm.refl _
  | succ fuel ih =>
    intro cur l hl
    simp only [nnLoop]
    rcases hn : nearestIdx c cur l with _ | nxt
    · cases l with
      | nil => exact List.Perm.refl _
      | cons j l' =>
        obtain ⟨r, hr⟩ := @nearestIdx_of_ne_nil c cur (j :: l')
          (List.cons_ne_nil j l')
        rw [hn] at hr
        cases hr
    · have hmem := nearestIdx_mem hn
      have hlen : (l.erase nxt).length ≤ fuel := by
        rw [List.length_erase_of_mem hmem]
        omega
      exact ((ih nxt (l.erase nxt) hlen).cons nxt).trans
        (List.perm_cons_erase hmem).symm

lemma nnTour_perm (c : ℕ → ℕ → ℤ) (n d : ℕ) (hd : d < n) :
    (nnTour c n d).Perm (List.range n) := by
  unfold nnTour
  have hmem : d ∈ List.range n := List.mem_range.mpr hd
  have hlen : ((List.range n).erase d).length ≤ n := by
    rw [List.length_erase_of_mem hmem, List.length_range]
    omega
  exact ((nnLoop_perm c n d _ hlen).cons d).trans (List.perm_cons_erase hmem).symm

lemma twoOptSwap_perm (t : List ℕ) (i j : ℕ) (hij : i ≤ j) :
    (twoOptSwap t i j).Perm t := by
  unfold twoOptSwap
  have h1 : (t.drop (i + 1)).drop (j - i) = t.drop (j + 1) := by
    rw [List.drop_drop]
    congr 1
    omega
  have h2 : (((t.drop (i + 1)).take (j - i)).reverse ++ t.drop (j + 1)).Perm
      (t.drop (i + 1)) := by
    rw [← h1]
    conv_rhs => rw [← List.take_append_drop (j - i) (t.drop (i + 1))]
    exact (List.reverse_perm _).append_right _
  rw [List.append_assoc]
  conv_rhs => rw [← List.take_append_drop (i + 1) t]
  exact List.Perm.append_left _ h2

lemma twoOptSwap_head (t : List ℕ) (i j : ℕ) (ht : t ≠ []) :
    (twoOptSwap t i j).head? = t.head? := by
  cases t with
  | nil => cases ht rfl
  | cons a t' =>
    unfold twoOptSwap
    rw [List.take_succ_cons]
    simp

lemma findImprove_bounds (c : ℕ → ℕ → ℤ) (t : List ℕ) (p : ℕ × ℕ)
    (h : findImprove c t = some p) : p.1 + 1 < p.2 ∧ p.2 + 1 < t.length := by
  have hmem : p ∈ improvePairs t := List.mem_of_find?_eq_some h
  unfold improvePairs at hmem
  rw [List.mem_flatMap] at hmem
  obtain ⟨i, _, hp⟩ := hmem
  rw [List.mem_filterMap] at hp
  obtain ⟨j, _, hpj⟩ := hp
  by_cases hc : i + 1 < j ∧ j + 1 < t.length
  · rw [if_pos hc] at hpj
    cases hpj
    exact hc
  · rw [if_neg hc] at hpj
    cases hpj

lemma twoOptLoop_perm (c : ℕ → ℕ → ℤ) :
    ∀ (fuel : ℕ) (t : List ℕ), (twoOptLoop c fuel t).Perm t := by
  intro fuel
  induction fuel with
  | zero => exact fun t => List.Perm.refl t
  | succ fuel ih =>
    intro t
    simp only [twoOptLoop]
    rcases hf : findImprove c t with _ | p
    · exact List.Perm.refl t
    · have hb := findImprove_bounds c t p hf
      exact (ih _).trans (twoOptSwap_perm t p.1 p.2 (by omega))

lemma twoOptLoop_head (c : ℕ → ℕ → ℤ) :
    ∀ (fuel : ℕ) (t : List ℕ), t ≠ [] →
      (twoOptLoop c fuel t).head? = t.head? := by
  intro fuel
  induction fuel with
  | zero => exact fun t _ => rfl
  | succ fuel ih =>
    intro t ht
    simp only [twoOptLoop]
    rcases hf : findImprove c t with _ | p
    · rfl
    · have hb := findImprove_bounds c t p hf
      have hswap : (twoOptSwap t p.1 p.2).Perm t :=
        twoOptSwap_perm t p.1 p.2 (by omega)
      have hne : twoOptSwap t p.1 p.2 ≠ [] := by
        have := hswap.length_eq
        intro hnil
        rw [hnil] at this
        simp at this
        exact ht (List.length_eq_zero.mp this.symm)
      rw [ih _ hne, twoOptSwap_head t p.1 p.2 ht]

lemma tourOfLocations_perm (locations : List (ℚ × ℚ)) :
    (tourOfLocations locations).Perm (List.range locations.length) := by
  unfold tourOfLocations
  split_ifs with h
  · exact (twoOptLoop_perm _ _ _).trans
      (nnTour_perm _ _ _ (by simpa [depot] using h))
  · have hz : locations.length = 0 := by omega
    rw [hz]
    exact List.Perm.refl _

lemma tourOfLocations_length (locations : List (ℚ × ℚ)) :
    (tourOfLocations locations).length = locations.length :=
  (tourOfLocations_perm locations).length_eq.trans (List.length_range _)

lemma tourOfLocations_head (locations : List (ℚ × ℚ))
    (h : 0 < locations.length) :
    (tourOfLocations locations).head? = some depot := by
  unfold tourOfLocations
  rw [if_pos h]
  unfold solveTour
  rw [twoOptLoop_head _ _ _ (by simp [nnTour])]
  simp [nnTour]

lemma tourOfLocations_mem_lt {locations : List (ℚ × ℚ)} {x : ℕ}
    (hx : x ∈ tourOfLocations locations) : x < locations.length :=
  List.mem_range.mp ((tourOfLocations_perm locations).subset hx)

end SolverLemmas

/-! ## Distance-matrix lemmas -/

section DistanceLemmas

lemma distSq_nonneg (p q : ℚ × ℚ) : 0 ≤ distSq p q := by
  unfold distSq
  positivity

lemma matrix_nonneg (locations : List (ℚ × ℚ)) (i j : ℕ) :
    0 ≤ CreateDistanceCallback.matrix locations i j := by
  unfold CreateDistanceCallback.matrix distance
  split_ifs
  · exact le_refl 0
  · exact Real.sqrt_nonneg _

lemma pyInt_of_nonneg {x : ℝ} (hx : 0 ≤ x) :
    CreateDistanceCallback.pyInt x = ⌊x⌋ :=
  if_pos hx

lemma Distance_eq_floor (locations : List (ℚ × ℚ)) (i j : ℕ) :
    CreateDistanceCallback.Distance locations i j =
      ⌊CreateDistanceCallback.matrix locations i j⌋ :=
  pyInt_of_nonneg (matrix_nonneg locations i j)

lemma matrix_symm (locations : List (ℚ × ℚ)) (i j : ℕ) :
    CreateDistanceCallback.matrix locations i j =
      CreateDistanceCallback.matrix locations j i := by
  unfold CreateDistanceCallback.matrix distance
  rcases eq_or_ne i j with h | h
  · subst h
    rfl
  · rw [if_neg h, if_neg (Ne.symm h)]
    congr 1
    ring

lemma matrix_eq_sqrt_distSq (locations : List (ℚ × ℚ)) {i j : ℕ} (h : i ≠ j) :
    CreateDistanceCallback.matrix locations i j =
      Real.sqrt ((distSq (locations.getD i (0, 0)) (locations.getD j (0, 0)) : ℚ) : ℝ) := by
  unfold CreateDistanceCallback.matrix distance distSq
  rw [if_neg h]
  congr 1
  push_cast
  ring

lemma ratSqrtFloor_eq_floor_sqrt (x : ℚ) (hx : 0 ≤ x) :
    (ratSqrtFloor x : ℤ) = ⌊Real.sqrt (x : ℝ)⌋ := by
  have hnum : (x.num.toNat : ℤ) = x.num := Int.toNat_of_nonneg (Rat.num_nonneg.mpr hx)
  set a : ℕ := x.num.toNat with ha
  set b : ℕ := x.den with hb
  have hbpos : 0 < (b : ℝ) := by
    have := x.den_pos
    positivity
  have hxr : (x : ℝ) = (a : ℝ) / (b : ℝ) := by
    have h1 : (a : ℝ) = (x.num : ℝ) := by exact_mod_cast hnum
    rw [Rat.cast_def, h1, hb]
  have hab : (x : ℝ) = ((a * b : ℕ) : ℝ) / ((b : ℝ)) ^ 2 := by
    rw [hxr]
    push_cast
    field_simp
    ring
  have hsq : Real.sqrt (x : ℝ) = Real.sqrt ((a * b : ℕ) : ℝ) / (b : ℝ) := by
    rw [hab, Real.sqrt_div (by positivity) _, Real.sqrt_sq (by positivity)]
  rw [hsq]
  have hnonneg : 0 ≤ Real.sqrt ((a * b : ℕ) : ℝ) / (b : ℝ) := by positivity
  rw [← Int.natCast_floor_eq_floor hnonneg, Nat.floor_div_nat]
  have hfl : ⌊Real.sqrt ((a * b : ℕ) : ℝ)⌋₊ = Nat.sqrt (a * b) := by
    rw [← Int.floor_toNat, Real.floor_real_sqrt_eq_nat_sqrt]
    simp
  rw [hfl]
  rfl

/-- The executable solver costs agree with the source's cost evaluator
`CreateDistanceCallback.Distance`. -/
lemma ratCost_eq_Distance (locations : List (ℚ × ℚ)) (i j : ℕ) :
    ratCost locations i j = CreateDistanceCallback.Distance locations i j := by
  unfold ratCost
  split_ifs with h
  · subst h
    rw [Distance_eq_floor]
    unfold CreateDistanceCallback.matrix
    rw [if_pos rfl]
    simp
  · rw [Distance_eq_floor, matrix_eq_sqrt_distSq locations h]
    exact ratSqrtFloor_eq_floor_sqrt _ (distSq_nonneg _ _)

end DistanceLemmas

/-! ## Session evaluation lemmas -/

section SessionLemmas

variable (embed : Embed)

/-- The canonical frame a session builds from its feature records. -/
def canonFrame (features : List Record) : Frame :=
  ⟨frameCols features, features⟩

lemma decomposeS_eval (st : Shuffler) (hloc : st.locations = none)
    (hdf : st.df = none)
    (hid : "id" ∈ frameCols st.features)
    (hcols : ∀ c ∈ f_cols, c ∈ frameCols st.features) :
    decomposeS embed st =
      (Except.ok (embed (featureMatrix st.features)),
       {st with df := some (canonFrame st.features),
                locations := some (embed (featureMatrix st.features))}) := by
  unfold decomposeS
  rw [hloc, getFeaturesS_eval st hdf hid hcols]
  rfl

lemma decomposeS_eval_cached (st : Shuffler) {l : List (ℚ × ℚ)}
    (hloc : st.locations = some l) :
    decomposeS embed st = (Except.ok l, st) := by
  unfold decomposeS
  rw [hloc]

lemma getSortS_eval_cached (st : Shuffler) {s : List ℕ}
    (hsort : st.sort = some s) :
    getSortS embed st = (Except.ok s, st) := by
  unfold getSortS
  rw [hsort]

lemma getSortS_eval (st : Shuffler) (hsort : st.sort = none)
    (hloc : st.locations = none) (hdf : st.df = none)
    (hid : "id" ∈ frameCols st.features)
    (hcols : ∀ c ∈ f_cols, c ∈ frameCols st.features) :
    getSortS embed st =
      (Except.ok (tourOfLocations (embed (featureMatrix st.features))),
       {st with df := some (canonFrame st.features),
                locations := some (embed (featureMatrix st.features)),
                sort := some (tourOfLocations (embed (featureMatrix st.features)))}) := by
  have hd := decomposeS_eval embed {st with sort := some []} hloc hdf hid hcols
  unfold getSortS
  rw [hsort]
  simp only [hd]

lemma getSortS_eval_locs (st : Shuffler) {l : List (ℚ × ℚ)}
    (hsort : st.sort = none) (hloc : st.locations = some l) :
    getSortS embed st =
      (Except.ok (tourOfLocations l), {st with sort := some (tourOfLocations l)}) := by
  have hd := decomposeS_eval_cached embed {st with sort := some []} hloc
  unfold getSortS
  rw [hsort]
  simp only [hd]

lemma ensureSort_eval_cached (st : Shuffler) {s : List ℕ}
    (hsort : st.sort = some s) :
    ensureSort embed st = (Except.ok (), st) := by
  unfold ensureSort
  rw [hsort]

lemma getChartsS_state (mobile : Bool) (st : Shuffler) :
    (getChartsS embed mobile st).2 = (ensureSort embed st).2 := by
  unfold getChartsS
  rcases h : ensureSort embed st with ⟨r, st1⟩
  cases r with
  | error e => rfl
  | ok u =>
    cases hl : st1.locations with
    | none => simp [hl]
    | some l =>
      cases l with
      | nil => simp [hl]
      | cons p rest => simp [hl]

lemma ensureSort_eval_none (st : Shuffler) (hsort : st.sort = none)
    {v : List ℕ} {st' : Shuffler}
    (hg : getSortS embed st = (Except.ok v, st')) :
    ensureSort embed st = (Except.ok (), st') := by
  unfold ensureSort
  rw [hsort, hg]

end SessionLemmas

/-! ## Chart indexing lemma -/

lemma getD_map_of_lt {α β : Type _} (f : α → β) (l : List α) (k : ℕ)
    (h : k < l.length) (d : β) (d' : α) :
    (l.map f).getD k d = f (l.getD k d') := by
  rw [List.getD_eq_getElem _ _ (by simpa using h), List.getD_eq_getElem _ _ h,
    List.getElem_map]

/-! ## Accessor call sequences (for idempotence / order independence) -/

/-- The three public accessors of a session, as a client may call them. -/
inductive Accessor where
  | sortA
  | decomposeA
  | chartsA (mobile : Bool)

/-- The effect of one accessor call on the session state. -/
def applyAccessor (embed : Embed) (st : Shuffler) : Accessor → Shuffler
  | Accessor.sortA => (getSortS embed st).2
  | Accessor.decomposeA => (decomposeS embed st).2
  | Accessor.chartsA mobile => (getChartsS embed mobile st).2

/-- The session state after a sequence of accessor calls. -/
def runAccessors (embed : Embed) (calls : List Accessor) (st : Shuffler) : Shuffler :=
  calls.foldl (applyAccessor embed) st

/-- The session state after `decompose` has run (frame and locations
cached, sort not yet computed). -/
def stDecomposed (embed : Embed) (tracks : List Track)
    (features : List Record) : Shuffler :=
  { tracks := tracks, features := features,
    df := some (canonFrame features),
    locations := some (embed (featureMatrix features)),
    sort := none }

/-- The fully evaluated session state: every cache holds its canonical
value. -/
def stFull (embed : Embed) (tracks : List Track)
    (features : List Record) : Shuffler :=
  { tracks := tracks, features := features,
    df := some (canonFrame features),
    locations := some (embed (featureMatrix features)),
    sort := some (tourOfLocations (embed (featureMatrix features))) }

section AccessorLemmas

variable (embed : Embed) (tracks : List Track) (features : List Record)

lemma getSortS_init (hid : "id" ∈ frameCols features)
    (hcols : ∀ c ∈ f_cols, c ∈ frameCols features) :
    getSortS embed (initShuffler tracks features) =
      (Except.ok (tourOfLocations (embed (featureMatrix features))),
       stFull embed tracks features) :=
  getSortS_eval embed _ rfl rfl rfl hid hcols

lemma decomposeS_init (hid : "id" ∈ frameCols features)
    (hcols : ∀ c ∈ f_cols, c ∈ frameCols features) :
    decomposeS embed (initShuffler tracks features) =
      (Except.ok (embed (featureMatrix features)),
       stDecomposed embed tracks features) :=
  decomposeS_eval embed _ rfl rfl hid hcols

lemma ensureSort_init (hid : "id" ∈ frameCols features)
    (hcols : ∀ c ∈ f_cols, c ∈ frameCols features) :
    ensureSort embed (initShuffler tracks features) =
      (Except.ok (), stFull embed tracks features) :=
  ensureSort_eval_none embed _ rfl (getSortS_init embed tracks features hid hcols)

lemma step_init_sort (hid : "id" ∈ frameCols features)
    (hcols : ∀ c ∈ f_cols, c ∈ frameCols features) :
    applyAccessor embed (initShuffler tracks features) Accessor.sortA =
      stFull embed tracks features := by
  show (getSortS embed (initShuffler tracks features)).2 = _
  rw [getSortS_init embed tracks features hid hcols]

lemma step_init_decompose (hid : "id" ∈ frameCols features)
    (hcols : ∀ c ∈ f_cols, c ∈ frameCols features) :
    applyAccessor embed (initShuffler tracks features) Accessor.decomposeA =
      stDecomposed embed tracks features := by
  show (decomposeS embed (initShuffler tracks features)).2 = _
  rw [decomposeS_init embed tracks features hid hcols]

lemma step_init_charts (mobile : Bool) (hid : "id" ∈ frameCols features)
    (hcols : ∀ c ∈ f_cols, c ∈ frameCols features) :
    applyAccessor embed (initShuffler tracks features) (Accessor.chartsA mobile) =
      stFull embed tracks features := by
  show (getChartsS embed mobile (initShuffler tracks features)).2 = _
  rw [getChartsS_state, ensureSort_init embed tracks features hid hcols]

lemma step_decomposed_sort :
    applyAccessor embed (stDecomposed embed tracks features) Accessor.sortA =
      stFull embed tracks features := by
  show (getSortS embed (stDecomposed embed tracks features)).2 = _
  rw [getSortS_eval_locs embed (stDecomposed embed tracks features) rfl rfl]
  rfl

lemma step_decomposed_decompose :
    applyAccessor embed (stDecomposed embed tracks features) Accessor.decomposeA =
      stDecomposed embed tracks features := by
  show (decomposeS embed (stDecomposed embed tracks features)).2 = _
  rw [decomposeS_eval_cached embed (stDecomposed embed tracks features) rfl]

lemma step_decomposed_charts (mobile : Bool) :
    applyAccessor embed (stDecomposed embed tracks features) (Accessor.chartsA mobile) =
      stFull embed tracks features := by
  have hg := getSortS_eval_locs embed (stDecomposed embed tracks features) rfl rfl
  have he := ensureSort_eval_none embed (stDecomposed embed tracks features) rfl hg
  show (getChartsS embed mobile (stDecomposed embed tracks features)).2 = _
  rw [getChartsS_state, he]
  rfl

lemma step_full_sort :
    applyAccessor embed (stFull embed tracks features) Accessor.sortA =
      stFull embed tracks features := by
  show (getSortS embed (stFull embed tracks features)).2 = _
  rw [getSortS_eval_cached embed (stFull embed tracks features) rfl]

lemma step_full_decompose :
    applyAccessor embed (stFull embed tracks features) Accessor.decomposeA =
      stFull embed tracks features := by
  show (decomposeS embed (stFull embed tracks features)).2 = _
  rw [decomposeS_eval_cached embed (stFull embed tracks features) rfl]

lemma step_full_charts (mobile : Bool) :
    applyAccessor embed (stFull embed tracks features) (Accessor.chartsA mobile) =
      stFull embed tracks features := by
  show (getChartsS embed mobile (stFull embed tracks features)).2 = _
  rw [getChartsS_state, ensureSort_eval_cached embed (stFull embed tracks features) rfl]

end AccessorLemmas

/-! ## Concrete inputs used by witnesses and counterexamples -/

/-- A feature record with all ten feature fields plus `id`, whose
`danceability` value is NaN. -/
def nanRecord : Record :=
  [("id", Val.num 1), ("danceability", Val.nan), ("energy", Val.num 1),
   ("key", Val.num 1), ("loudness", Val.num 1), ("speechiness", Val.num 1),
   ("acousticness", Val.num 1), ("instrumentalness", Val.num 1),
   ("liveness", Val.num 1), ("valence", Val.num 1), ("tempo", Val.num 1)]

/-- A fully populated feature record (ten feature fields plus `id`), all
cells holding `v`. -/
def sampleRecord (v : ℚ) : Record :=
  [("id", Val.num v), ("danceability", Val.num v), ("energy", Val.num v),
   ("key", Val.num v), ("loudness", Val.num v), ("speechiness", Val.num v),
   ("acousticness", Val.num v), ("instrumentalness", Val.num v),
   ("liveness", Val.num v), ("valence", Val.num v), ("tempo", Val.num v)]

/-- A record holding exactly the ten feature fields and nothing else. -/
def tenFieldRecord : Record :=
  [("danceability", Val.num 1), ("energy", Val.num 1), ("key", Val.num 1),
   ("loudness", Val.num 1), ("speechiness", Val.num 1),
   ("acousticness", Val.num 1), ("instrumentalness", Val.num 1),
   ("liveness", Val.num 1), ("valence", Val.num 1), ("tempo", Val.num 1)]

/-- Two named tracks. -/
def sampleTracks : List Track := [⟨"a"⟩, ⟨"b"⟩]

/-- A concrete stand-in for the opaque MDS call: two points at distance 5. -/
def sampleEmbed : Embed := fun _ => [((0 : ℚ), (0 : ℚ)), ((3 : ℚ), (4 : ℚ))]

/-! ## Claim theorems -/

/-- C2 (counterexample): on a record whose `danceability` value is NaN (and
with every required field present), `get_features` does not raise anything —
it returns the feature matrix with the NaN inside, so no `DataError` (a
class that does not exist anywhere in the code) is raised before the
embedding computation begins. This refutes the claim that the pipeline
raises a `DataError` for NaN input. -/
theorem get_features_nan_no_error_cex :
    (getFeaturesS (initShuffler [] [nanRecord])).1 =
      Except.ok [[Val.nan, Val.num 1, Val.num 1, Val.num 1, Val.num 1,
                  Val.num 1, Val.num 1, Val.num 1, Val.num 1, Val.num 1]] := rfl

/-- C2 (amended): the pipeline performs no input validation. For any input
whose frame has the `id` column and all ten feature columns, a NaN cell in
a feature column flows through `get_features` into the returned feature
matrix without any error being raised (there is no `DataError` in the code;
missing fields of individual records likewise become NaN cells rather than
errors, and the cardinality of `tracks` is never compared to that of the
records). -/
theorem feature_nan_passes_through
    (tracks : List Track) (records : List Record)
    (hid : "id" ∈ frameCols records)
    (hcols : ∀ c ∈ f_cols, c ∈ frameCols records)
    (r : Record) (c : String) (hr : r ∈ records) (hc : c ∈ f_cols)
    (hnan : cellOf r c = Val.nan) :
    (getFeaturesS (initShuffler tracks records)).1 =
      Except.ok (featureMatrix records) ∧
    Val.nan ∈ (featureMatrix records).flatten := by
  constructor
  · rw [getFeaturesS_eval (initShuffler tracks records) rfl hid hcols]
    rfl
  · rw [List.mem_flatten]
    refine ⟨f_cols.map (cellOf r), List.mem_map_of_mem _ hr, ?_⟩
    exact List.mem_map.mpr ⟨c, hc, hnan⟩

/-- C2 (witness for the amended theorem): the NaN record exercises the
amended theorem. -/
theorem feature_nan_passes_through_witness :
    (getFeaturesS (initShuffler [] [nanRecord])).1 =
      Except.ok (featureMatrix [nanRecord]) ∧
    Val.nan ∈ (featureMatrix [nanRecord]).flatten :=
  feature_nan_passes_through [] [nanRecord] (by decide) (by decide)
    nanRecord "danceability" (by decide) (by decide) (by decide)

/-- C3 (counterexample): on the empty item list, `get_sort` does not return
an empty sequence — `_build_frame` raises a `KeyError` because the empty
frame has no `id` column to `set_index` on. This refutes the claim that the
empty input yields empty results with no error raised. -/
theorem empty_input_raises_cex :
    (getSortS (fun _ => []) (initShuffler [] [])).1 =
      Except.error (PyErr.keyError "id") := rfl

/-- C3 (amended): on the empty item list the pipeline raises a `KeyError`
from frame construction (before any embedding or tour computation, for
every embedding function and either capability profile), instead of
returning empty results; the tour-extraction logic itself does map an empty
location set to the empty tour without invoking the solver, and the pure
chart transform maps empty inputs to two empty point sets. -/
theorem empty_input_behavior (embed : Embed) (mobile : Bool) :
    (getSortS embed (initShuffler [] [])).1 =
      Except.error (PyErr.keyError "id") ∧
    (getChartsS embed mobile (initShuffler [] [])).1 =
      Except.error (PyErr.keyError "id") ∧
    tourOfLocations [] = [] ∧
    chartSources [] [] [] = (⟨[], [], []⟩, ⟨[], [], []⟩) :=
  ⟨rfl, rfl, rfl, rfl⟩

/-- C9 (counterexample): on a record holding exactly the ten named feature
fields (and nothing else), `get_features` does not return a width-10
matrix — it raises a `KeyError`, because `_build_frame` first calls
`set_index('id')` and no `id` column exists. This refutes the claim as
stated for inputs without an `id` field. -/
theorem ten_field_record_keyerror_cex :
    (getFeaturesS (initShuffler [] [tenFieldRecord])).1 =
      Except.error (PyErr.keyError "id") := rfl

/-- C9 (amended): for every input whose records all contain the ten named
feature fields and whose frame additionally has the `id` column (present in
at least one record), `get_features` returns the matrix whose rows list
exactly the ten columns `danceability, energy, key, loudness, speechiness,
acousticness, instrumentalness, liveness, valence, tempo` in that fixed
hard-coded order, so every row has width exactly 10 for every input. -/
theorem get_features_width_ten
    (tracks : List Track) (records : List Record)
    (hid : "id" ∈ frameCols records)
    (hten : ∀ r ∈ records, ∀ c ∈ f_cols, c ∈ recordKeys r) :
    (getFeaturesS (initShuffler tracks records)).1 =
      Except.ok (records.map (fun r =>
        [cellOf r "danceability", cellOf r "energy", cellOf r "key",
         cellOf r "loudness", cellOf r "speechiness", cellOf r "acousticness",
         cellOf r "instrumentalness", cellOf r "liveness", cellOf r "valence",
         cellOf r "tempo"])) ∧
    (∀ row ∈ featureMatrix records, row.length = 10) ∧
    f_cols.length = 10 := by
  have hcols : ∀ c ∈ f_cols, c ∈ frameCols records := by
    have hex : ∃ r ∈ records, "id" ∈ recordKeys r := by
      have h2 := hid
      unfold frameCols at h2
      rw [List.mem_dedup, List.mem_flatten] at h2
      obtain ⟨l, hl, hidl⟩ := h2
      rw [List.mem_map] at hl
      obtain ⟨r, hr, rfl⟩ := hl
      exact ⟨r, hr, hidl⟩
    obtain ⟨r, hr, _⟩ := hex
    intro c hc
    exact mem_frameCols_of_mem_keys hr (hten r hr c hc)
  refine ⟨?_, ?_, rfl⟩
  · rw [getFeaturesS_eval (initShuffler tracks records) rfl hid hcols]
    rfl
  · intro row hrow
    unfold featureMatrix at hrow
    rw [List.mem_map] at hrow
    obtain ⟨r, _, hr⟩ := hrow
    rw [← hr, List.length_map]
    rfl

/-- C9 (witness for the amended theorem): a fully populated record. -/
theorem get_features_width_ten_witness :
    (getFeaturesS (initShuffler [] [sampleRecord 1])).1 =
      Except.ok ([sampleRecord 1].map (fun r =>
        [cellOf r "danceability", cellOf r "energy", cellOf r "key",
         cellOf r "loudness", cellOf r "speechiness", cellOf r "acousticness",
         cellOf r "instrumentalness", cellOf r "liveness", cellOf r "valence",
         cellOf r "tempo"])) ∧
    (∀ row ∈ featureMatrix [sampleRecord 1], row.length = 10) ∧
    f_cols.length = 10 :=
  get_features_width_ten [] [sampleRecord 1] (by decide) (by decide)

/-- C1: for every valid input (frame has the `id` column and the ten feature
columns; the embedding produces one 2-D row per record, as MDS does), the
value returned by `Shuffler.get_sort` is a permutation of `{0, …, N-1}` for
`N` the number of items: exactly `N` indices, no duplicates, none omitted. -/
theorem get_sort_is_permutation
    (embed : Embed) (tracks : List Track) (features : List Record)
    (hid : "id" ∈ frameCols features)
    (hcols : ∀ c ∈ f_cols, c ∈ frameCols features)
    (hembed : (embed (featureMatrix features)).length = features.length) :
    ∀ v, (getSortS embed (initShuffler tracks features)).1 = Except.ok v →
      v.Perm (List.range features.length) ∧
      v.length = features.length ∧ v.Nodup := by
  intro v hv
  rw [getSortS_init embed tracks features hid hcols] at hv
  simp only [Except.ok.injEq] at hv
  subst hv
  have hp := tourOfLocations_perm (embed (featureMatrix features))
  rw [hembed] at hp
  exact ⟨hp, hp.length_eq.trans (List.length_range _),
    hp.nodup_iff.mpr (List.nodup_range _)⟩

/-- C1 (witness): a concrete two-item session. -/
theorem get_sort_is_permutation_witness :
    (tourOfLocations (sampleEmbed (featureMatrix [sampleRecord 1, sampleRecord 2]))).Perm
      (List.range 2) ∧
    (tourOfLocations (sampleEmbed (featureMatrix [sampleRecord 1, sampleRecord 2]))).length = 2 ∧
    (tourOfLocations (sampleEmbed (featureMatrix [sampleRecord 1, sampleRecord 2]))).Nodup :=
  get_sort_is_permutation sampleEmbed sampleTracks [sampleRecord 1, sampleRecord 2]
    (by decide) (by decide) rfl
    (tourOfLocations (sampleEmbed (featureMatrix [sampleRecord 1, sampleRecord 2]))) rfl

/-- C4: for every valid non-empty input, the first element of the tour
returned by `Shuffler.get_sort` is the depot index, which the source
hard-codes to `0` (`depot = 0`, line 98). -/
theorem get_sort_starts_at_depot
    (embed : Embed) (tracks : List Track) (features : List Record)
    (hid : "id" ∈ frameCols features)
    (hcols : ∀ c ∈ f_cols, c ∈ frameCols features)
    (hne : features ≠ [])
    (hembed : (embed (featureMatrix features)).length = features.length) :
    ∀ v, (getSortS embed (initShuffler tracks features)).1 = Except.ok v →
      v.head? = some depot ∧ depot = 0 := by
  intro v hv
  rw [getSortS_init embed tracks features hid hcols] at hv
  simp only [Except.ok.injEq] at hv
  subst hv
  have hpos : 0 < (embed (featureMatrix features)).length := by
    rw [hembed]
    exact List.length_pos.mpr hne
  exact ⟨tourOfLocations_head _ hpos, rfl⟩

/-- C4 (witness): a concrete two-item session. -/
theorem get_sort_starts_at_depot_witness :
    (tourOfLocations (sampleEmbed (featureMatrix [sampleRecord 1, sampleRecord 2]))).head? =
      some depot ∧ depot = 0 :=
  get_sort_starts_at_depot sampleEmbed sampleTracks [sampleRecord 1, sampleRecord 2]
    (by decide) (by decide) (by decide) rfl
    (tourOfLocations (sampleEmbed (featureMatrix [sampleRecord 1, sampleRecord 2]))) rfl

/-- C5: for every valid input, each accessor is idempotent — a second call
of `get_sort` (likewise `decompose` and `get_charts`) returns the very same
value and leaves the state untouched, the caches having been written once —
and running the three accessors once each in any of the six possible orders
drives the session to the same fully cached final state. -/
theorem accessors_idempotent_order_independent
    (embed : Embed) (tracks : List Track) (features : List Record)
    (mobile : Bool)
    (hid : "id" ∈ frameCols features)
    (hcols : ∀ c ∈ f_cols, c ∈ frameCols features) :
    (getSortS embed ((getSortS embed (initShuffler tracks features)).2) =
       getSortS embed (initShuffler tracks features)) ∧
    (decomposeS embed ((decomposeS embed (initShuffler tracks features)).2) =
       decomposeS embed (initShuffler tracks features)) ∧
    (getChartsS embed mobile
        ((getChartsS embed mobile (initShuffler tracks features)).2) =
       getChartsS embed mobile (initShuffler tracks features)) ∧
    ([[Accessor.sortA, Accessor.decomposeA, Accessor.chartsA mobile],
      [Accessor.sortA, Accessor.chartsA mobile, Accessor.decomposeA],
      [Accessor.decomposeA, Accessor.sortA, Accessor.chartsA mobile],
      [Accessor.decomposeA, Accessor.chartsA mobile, Accessor.sortA],
      [Accessor.chartsA mobile, Accessor.sortA, Accessor.decomposeA],
      [Accessor.chartsA mobile, Accessor.decomposeA, Accessor.sortA]].map
        (fun calls => runAccessors embed calls (initShuffler tracks features)) =
      List.replicate 6 (stFull embed tracks features)) := by
  have hS := getSortS_init embed tracks features hid hcols
  have hD := decomposeS_init embed tracks features hid hcols
  have hE1 := ensureSort_init embed tracks features hid hcols
  have hE2 := ensureSort_eval_cached embed (stFull embed tracks features) rfl
  have s1 := step_init_sort embed tracks features hid hcols
  have s2 := step_init_decompose embed tracks features hid hcols
  have s3 := step_init_charts embed tracks features mobile hid hcols
  have d1 := step_decomposed_sort embed tracks features
  have d2 := step_decomposed_decompose embed tracks features
  have d3 := step_decomposed_charts embed tracks features mobile
  have f1 := step_full_sort embed tracks features
  have f2 := step_full_decompose embed tracks features
  have f3 := step_full_charts embed tracks features mobile
  refine ⟨?_, ?_, ?_, ?_⟩
  · rw [hS]
    exact getSortS_eval_cached embed (stFull embed tracks features) rfl
  · rw [hD]
    exact decomposeS_eval_cached embed (stDecomposed embed tracks features) rfl
  · have hstate : (getChartsS embed mobile (initShuffler tracks features)).2 =
        stFull embed tracks features := by
      rw [getChartsS_state, hE1]
    rw [hstate]
    unfold getChartsS
    rw [hE1, hE2]
  · simp only [List.map_cons, List.map_nil, runAccessors, List.foldl_cons,
      List.foldl_nil, s1, s2, s3, d1, d2, d3, f1, f2, f3]
    rfl

/-- C5 (witness): a concrete two-item session with both hypotheses
discharged by evaluation. -/
theorem accessors_idempotent_order_independent_witness :
    (getSortS sampleEmbed
        ((getSortS sampleEmbed (initShuffler sampleTracks [sampleRecord 1, sampleRecord 2])).2) =
       getSortS sampleEmbed (initShuffler sampleTracks [sampleRecord 1, sampleRecord 2])) ∧
    (decomposeS sampleEmbed
        ((decomposeS sampleEmbed (initShuffler sampleTracks [sampleRecord 1, sampleRecord 2])).2) =
       decomposeS sampleEmbed (initShuffler sampleTracks [sampleRecord 1, sampleRecord 2])) ∧
    (getChartsS sampleEmbed false
        ((getChartsS sampleEmbed false (initShuffler sampleTracks [sampleRecord 1, sampleRecord 2])).2) =
       getChartsS sampleEmbed false (initShuffler sampleTracks [sampleRecord 1, sampleRecord 2])) ∧
    ([[Accessor.sortA, Accessor.decomposeA, Accessor.chartsA false],
      [Accessor.sortA, Accessor.chartsA false, Accessor.decomposeA],
      [Accessor.decomposeA, Accessor.sortA, Accessor.chartsA false],
      [Accessor.decomposeA, Accessor.chartsA false, Accessor.sortA],
      [Accessor.chartsA false, Accessor.sortA, Accessor.decomposeA],
      [Accessor.chartsA false, Accessor.decomposeA, Accessor.sortA]].map
        (fun calls => runAccessors sampleEmbed calls
          (initShuffler sampleTracks [sampleRecord 1, sampleRecord 2])) =
      List.replicate 6 (stFull sampleEmbed sampleTracks [sampleRecord 1, sampleRecord 2])) :=
  accessors_idempotent_order_independent sampleEmbed sampleTracks
    [sampleRecord 1, sampleRecord 2] false (by decide) (by decide)

/-- C6: the distance matrix built for the tour solver is symmetric and
non-negative with zero diagonal, its off-diagonal entries are exactly the
(untruncated) Euclidean distances between the corresponding embedding rows,
and the cost evaluator `Distance` delivers these values truncated to
integers (here via `⌊·⌋`, since the values are non-negative) — the solver's
executable costs `ratCost` coincide with this evaluator. -/
theorem distance_matrix_properties
    (locations : List (ℚ × ℚ)) (i j : ℕ)
    (hi : i < locations.length) (hj : j < locations.length) :
    CreateDistanceCallback.matrix locations i j =
      CreateDistanceCallback.matrix locations j i ∧
    0 ≤ CreateDistanceCallback.matrix locations i j ∧
    CreateDistanceCallback.matrix locations i i = 0 ∧
    (i ≠ j → CreateDistanceCallback.matrix locations i j =
      distance ((locations.getD i (0, 0)).1 : ℝ) ((locations.getD i (0, 0)).2 : ℝ)
               ((locations.getD j (0, 0)).1 : ℝ) ((locations.getD j (0, 0)).2 : ℝ)) ∧
    CreateDistanceCallback.Distance locations i j =
      ⌊CreateDistanceCallback.matrix locations i j⌋ ∧
    ratCost locations i j = CreateDistanceCallback.Distance locations i j := by
  refine ⟨matrix_symm locations i j, matrix_nonneg locations i j, ?_, ?_,
    Distance_eq_floor locations i j, ratCost_eq_Distance locations i j⟩
  · unfold CreateDistanceCallback.matrix
    rw [if_pos rfl]
  · intro h
    unfold CreateDistanceCallback.matrix
    rw [if_neg h]

/-- C6 (witness): the two sample points `(0,0)` and `(3,4)`. -/
theorem distance_matrix_properties_witness :
    CreateDistanceCallback.matrix [((0 : ℚ), (0 : ℚ)), ((3 : ℚ), (4 : ℚ))] 0 1 =
      CreateDistanceCallback.matrix [((0 : ℚ), (0 : ℚ)), ((3 : ℚ), (4 : ℚ))] 1 0 ∧
    0 ≤ CreateDistanceCallback.matrix [((0 : ℚ), (0 : ℚ)), ((3 : ℚ), (4 : ℚ))] 0 1 ∧
    CreateDistanceCallback.matrix [((0 : ℚ), (0 : ℚ)), ((3 : ℚ), (4 : ℚ))] 0 0 = 0 ∧
    ((0 : ℕ) ≠ (1 : ℕ) →
      CreateDistanceCallback.matrix [((0 : ℚ), (0 : ℚ)), ((3 : ℚ), (4 : ℚ))] 0 1 =
        distance
          ((([((0 : ℚ), (0 : ℚ)), ((3 : ℚ), (4 : ℚ))].getD 0 (0, 0)).1 : ℚ) : ℝ)
          ((([((0 : ℚ), (0 : ℚ)), ((3 : ℚ), (4 : ℚ))].getD 0 (0, 0)).2 : ℚ) : ℝ)
          ((([((0 : ℚ), (0 : ℚ)), ((3 : ℚ), (4 : ℚ))].getD 1 (0, 0)).1 : ℚ) : ℝ)
          ((([((0 : ℚ), (0 : ℚ)), ((3 : ℚ), (4 : ℚ))].getD 1 (0, 0)).2 : ℚ) : ℝ)) ∧
    CreateDistanceCallback.Distance [((0 : ℚ), (0 : ℚ)), ((3 : ℚ), (4 : ℚ))] 0 1 =
      ⌊CreateDistanceCallback.matrix [((0 : ℚ), (0 : ℚ)), ((3 : ℚ), (4 : ℚ))] 0 1⌋ ∧
    ratCost [((0 : ℚ), (0 : ℚ)), ((3 : ℚ), (4 : ℚ))] 0 1 =
      CreateDistanceCallback.Distance [((0 : ℚ), (0 : ℚ)), ((3 : ℚ), (4 : ℚ))] 0 1 :=
  distance_matrix_properties [((0 : ℚ), (0 : ℚ)), ((3 : ℚ), (4 : ℚ))] 0 1
    (by decide) (by decide)

/-- C10: the cost evaluator `CreateDistanceCallback.Distance` truncates
toward zero — any two distinct points at Euclidean distance strictly below
one get cost `0`, the same cost as a point to itself; in general the cost is
non-negative and never exceeds the exact Euclidean distance. -/
theorem cost_truncation_below_one
    (locations : List (ℚ × ℚ)) (i j : ℕ)
    (hi : i < locations.length) (hj : j < locations.length) :
    (i ≠ j → CreateDistanceCallback.matrix locations i j < 1 →
      CreateDistanceCallback.Distance locations i j = 0) ∧
    CreateDistanceCallback.Distance locations i i = 0 ∧
    0 ≤ CreateDistanceCallback.Distance locations i j ∧
    (CreateDistanceCallback.Distance locations i j : ℝ) ≤
      CreateDistanceCallback.matrix locations i j := by
  refine ⟨?_, ?_, ?_, ?_⟩
  · intro _ hlt
    rw [Distance_eq_floor, Int.floor_eq_zero_iff]
    exact Set.mem_Ico.mpr ⟨matrix_nonneg locations i j, hlt⟩
  · rw [Distance_eq_floor]
    have hz : CreateDistanceCallback.matrix locations i i = 0 := by
      unfold CreateDistanceCallback.matrix
      rw [if_pos rfl]
    rw [hz]
    exact Int.floor_zero
  · rw [Distance_eq_floor]
    exact Int.floor_nonneg.mpr (matrix_nonneg locations i j)
  · rw [Distance_eq_floor]
    exact Int.floor_le _

/-- C10 (witness): the points `(0,0)` and `(1/2,0)` lie at distance
`1/2 < 1` and indeed get cost `0`. -/
theorem cost_truncation_below_one_witness :
    CreateDistanceCallback.matrix [((0 : ℚ), (0 : ℚ)), ((1/2 : ℚ), (0 : ℚ))] 0 1 < 1 ∧
    CreateDistanceCallback.Distance [((0 : ℚ), (0 : ℚ)), ((1/2 : ℚ), (0 : ℚ))] 0 1 = 0 := by
  have hm : CreateDistanceCallback.matrix
      [((0 : ℚ), (0 : ℚ)), ((1/2 : ℚ), (0 : ℚ))] 0 1 = Real.sqrt ((1/4 : ℝ)) := by
    rw [matrix_eq_sqrt_distSq _ (by decide)]
    norm_num [distSq]
  have hlt : CreateDistanceCallback.matrix
      [((0 : ℚ), (0 : ℚ)), ((1/2 : ℚ), (0 : ℚ))] 0 1 < 1 := by
    rw [hm, show (1/4 : ℝ) = (1/2 : ℝ) ^ 2 by norm_num,
      Real.sqrt_sq (by norm_num : (0 : ℝ) ≤ 1/2)]
    norm_num
  exact ⟨hlt,
    (cost_truncation_below_one [((0 : ℚ), (0 : ℚ)), ((1/2 : ℚ), (0 : ℚ))] 0 1
      (by decide) (by decide)).1 (by decide) hlt⟩

/-- C7: round-trip — with the tour returned for the session's locations,
the k-th entry of the tour-ordered point set carries exactly the label and
the coordinates of the original point set at index `tour[k]`: reordering
the item names by the tour recovers the sorted labels, and label and
coordinates move together. -/
theorem chart_round_trip
    (tracks : List Track) (locations : List (ℚ × ℚ))
    (hlen : tracks.length = locations.length)
    (k : ℕ) (hk : k < locations.length) :
    ((chartSources tracks locations (tourOfLocations locations)).2.name.getD k "" =
      (chartSources tracks locations (tourOfLocations locations)).1.name.getD
        ((tourOfLocations locations).getD k 0) "") ∧
    ((chartSources tracks locations (tourOfLocations locations)).2.x.getD k 0 =
      (chartSources tracks locations (tourOfLocations locations)).1.x.getD
        ((tourOfLocations locations).getD k 0) 0) ∧
    ((chartSources tracks locations (tourOfLocations locations)).2.y.getD k 0 =
      (chartSources tracks locations (tourOfLocations locations)).1.y.getD
        ((tourOfLocations locations).getD k 0) 0) := by
  have hkt : k < (tourOfLocations locations).length := by
    rw [tourOfLocations_length]
    exact hk
  have htk : (tourOfLocations locations).getD k 0 < locations.length := by
    apply tourOfLocations_mem_lt
    rw [List.getD_eq_getElem _ _ hkt]
    exact List.getElem_mem hkt
  refine ⟨?_, ?_, ?_⟩
  · simp only [chartSources]
    rw [getD_map_of_lt _ _ _ hkt _ 0]
  · simp only [chartSources]
    rw [List.map_map, getD_map_of_lt _ _ _ hkt _ 0,
      getD_map_of_lt Prod.fst locations _ htk _ ((0 : ℚ), (0 : ℚ))]
    rfl
  · simp only [chartSources]
    rw [List.map_map, getD_map_of_lt _ _ _ hkt _ 0,
      getD_map_of_lt Prod.snd locations _ htk _ ((0 : ℚ), (0 : ℚ))]
    rfl

/-- C7 (witness): the two sample points and index 0. -/
theorem chart_round_trip_witness :
    ((chartSources sampleTracks [((0 : ℚ), (0 : ℚ)), ((3 : ℚ), (4 : ℚ))]
        (tourOfLocations [((0 : ℚ), (0 : ℚ)), ((3 : ℚ), (4 : ℚ))])).2.name.getD 0 "" =
      (chartSources sampleTracks [((0 : ℚ), (0 : ℚ)), ((3 : ℚ), (4 : ℚ))]
        (tourOfLocations [((0 : ℚ), (0 : ℚ)), ((3 : ℚ), (4 : ℚ))])).1.name.getD
        ((tourOfLocations [((0 : ℚ), (0 : ℚ)), ((3 : ℚ), (4 : ℚ))]).getD 0 0) "") ∧
    ((chartSources sampleTracks [((0 : ℚ), (0 : ℚ)), ((3 : ℚ), (4 : ℚ))]
        (tourOfLocations [((0 : ℚ), (0 : ℚ)), ((3 : ℚ), (4 : ℚ))])).2.x.getD 0 0 =
      (chartSources sampleTracks [((0 : ℚ), (0 : ℚ)), ((3 : ℚ), (4 : ℚ))]
        (tourOfLocations [((0 : ℚ), (0 : ℚ)), ((3 : ℚ), (4 : ℚ))])).1.x.getD
        ((tourOfLocations [((0 : ℚ), (0 : ℚ)), ((3 : ℚ), (4 : ℚ))]).getD 0 0) 0) ∧
    ((chartSources sampleTracks [((0 : ℚ), (0 : ℚ)), ((3 : ℚ), (4 : ℚ))]
        (tourOfLocations [((0 : ℚ), (0 : ℚ)), ((3 : ℚ), (4 : ℚ))])).2.y.getD 0 0 =
      (chartSources sampleTracks [((0 : ℚ), (0 : ℚ)), ((3 : ℚ), (4 : ℚ))]
        (tourOfLocations [((0 : ℚ), (0 : ℚ)), ((3 : ℚ), (4 : ℚ))])).1.y.getD
        ((tourOfLocations [((0 : ℚ), (0 : ℚ)), ((3 : ℚ), (4 : ℚ))]).getD 0 0) 0) :=
  chart_round_trip sampleTracks [((0 : ℚ), (0 : ℚ)), ((3 : ℚ), (4 : ℚ))]
    rfl 0 (by decide)

/-- C8: the `mobile` capability profile does not change the numeric content
of `get_charts` — for any session state, the two runs return identical point
sets (same coordinates, same labels) and identical final states; only the
attached interactive toolset differs. -/
theorem charts_mobile_profile_invariant (embed : Embed) (st : Shuffler) :
    (getChartsS embed true st).1.map Prod.fst =
      (getChartsS embed false st).1.map Prod.fst ∧
    (getChartsS embed true st).2 = (getChartsS embed false st).2 := by
  unfold getChartsS
  rcases h : ensureSort embed st with ⟨r, st1⟩
  cases r with
  | error e => exact ⟨rfl, rfl⟩
  | ok u =>
    cases hl : st1.locations with
    | none => constructor <;> simp [hl]
    | some l =>
      cases l with
      | nil => constructor <;> simp [hl]
      | cons p rest => constructor <;> simp [hl, Except.map]
